import Mathlib

/-!
Verification of the sensor-control translation layer in
`src/ipa/rpi/cam_helper/cam_helper_vc_cam.cpp` (class `CamHelperImxVCCamera`).

Shallow embedding conventions:
- `libcamera::utils::Duration` (a double count of nanoseconds) is modelled as a
  rational number of nanoseconds (`ℚ`), following the spec statement that all
  duration arithmetic has integer-nanosecond-equivalent precision, that
  duration-to-lines conversion truncates (floor) and lines-to-duration is exact
  multiplication.
- Unsigned machine integers are modelled as `ℕ`, with an explicit `% 2^32` /
  `% 2^64` wherever the C++ computation can overflow or wrap (in particular the
  `uint32_t` subtraction `frameLengthLines - frameIntegrationDiff`).
- `double` gain arithmetic (`log10`, `pow`, `lround`) is modelled over `ℝ`.
-/

namespace VCCam

/-- The fields of `RPiController::CameraMode` read by `getBlanking`:
`width`, `height`, `bitdepth`, `pixelRate` (Hz, a double, modelled as `ℚ`),
`minLineLength` / `maxLineLength` (Durations, in nanoseconds) and
`maxFrameLength` (lines, a `uint32_t`). -/
structure CameraMode where
  width : ℕ
  height : ℕ
  bitdepth : ℕ
  pixelRate : ℚ
  minLineLength : ℚ
  maxLineLength : ℚ
  maxFrameLength : ℕ

/-- `static constexpr int frameIntegrationDiff = 4` (cam_helper_vc_cam.cpp:62). -/
def frameIntegrationDiff : ℕ := 4

/-- `constexpr uint32_t numLanes = 4` (cam_helper_vc_cam.cpp:124). -/
def numLanes : ℕ := 4

/-- Modulus of `uint32_t`. -/
def U32 : ℕ := 2 ^ 32

/-- Modulus of `uint64_t`. -/
def U64 : ℕ := 2 ^ 64

/-- Modelled from the spec: `CamHelper::exposureLines` (the
duration-to-lines converter, declared in cam_helper.h but defined outside
src/). The spec fixes it as floor division of the exposure duration by the
line length. -/
def exposureLinesOf (exposure lineLength : ℚ) : ℕ :=
  (⌊exposure / lineLength⌋).toNat

/-- Modelled from the spec: `CamHelper::exposure` (the lines-to-duration
converter, declared in cam_helper.h but defined outside src/). The spec fixes
it as exact multiplication of the line count by the line length. -/
def exposureOf (lines : ℕ) (lineLength : ℚ) : ℚ :=
  (lines : ℚ) * lineLength

/-- The `kImx900_4Lane` table lookup (cam_helper_vc_cam.cpp:124-140): the first
entry whose bit depth matches gives `hmaxBase`; with no match, `hmaxBase`
keeps its initial value `mode_.width`. -/
def hmaxBaseOf (mode : CameraMode) : ℕ :=
  if mode.bitdepth = 8 then 338
  else if mode.bitdepth = 10 then 364
  else if mode.bitdepth = 12 then 610
  else mode.width

/-- `const uint64_t sensorPixelRate = mode_.pixelRate / (2 * numLanes)`
(cam_helper_vc_cam.cpp:142): double division, truncated by the cast to
`uint64_t`. -/
def sensorPixelRate (mode : CameraMode) : ℕ :=
  (⌊mode.pixelRate / ((2 * numLanes : ℕ) : ℚ)⌋).toNat

/-- `uint32_t frameLengthLines = minFrameDuration / mode_.minLineLength`
(cam_helper_vc_cam.cpp:145): Duration ratio truncated by the cast to
`uint32_t` (the cast out of `[0, 2^32)` is undefined behaviour in C++, so no
wrap is modelled). -/
def frameLengthLines0 (mode : CameraMode) (minFrameDuration : ℚ) : ℕ :=
  (⌊minFrameDuration / mode.minLineLength⌋).toNat

/-- The line length after the rescale branch (cam_helper_vc_cam.cpp:147-151):
when the initial frame length exceeds `maxFrameLength`, the line length
becomes `min(maxLineLength, lineLength * frameLengthLines / maxFrameLength)`
(exact Duration arithmetic); otherwise it stays `minLineLength`. -/
def finalLineLength (mode : CameraMode) (minFrameDuration : ℚ) : ℚ :=
  if mode.maxFrameLength < frameLengthLines0 mode minFrameDuration then
    min mode.maxLineLength
      (mode.minLineLength * (frameLengthLines0 mode minFrameDuration : ℚ) /
        (mode.maxFrameLength : ℚ))
  else mode.minLineLength

/-- The frame length after the rescale branch (cam_helper_vc_cam.cpp:147-151):
clamped to `maxFrameLength` exactly when the initial value exceeds it. -/
def finalFrameLengthLines (mode : CameraMode) (minFrameDuration : ℚ) : ℕ :=
  if mode.maxFrameLength < frameLengthLines0 mode minFrameDuration then
    mode.maxFrameLength
  else frameLengthLines0 mode minFrameDuration

/-- `const uint64_t lineNs = lineLength.get<std::nano>()`
(cam_helper_vc_cam.cpp:153): the nanosecond count truncated to `uint64_t`. -/
def lineNs (mode : CameraMode) (minFrameDuration : ℚ) : ℕ :=
  (⌊finalLineLength mode minFrameDuration⌋).toNat

/-- `const uint32_t hmaxOverwrite = (lineNs * sensorPixelRate) / 1000000000ULL`
(cam_helper_vc_cam.cpp:154-155): `uint64_t` product (mod `2^64`), integer
division, then the cast to `uint32_t` (mod `2^32`). -/
def hmaxOverwrite (mode : CameraMode) (minFrameDuration : ℚ) : ℕ :=
  lineNs mode minFrameDuration * sensorPixelRate mode % U64 / 1000000000 % U32

/-- `const uint32_t hblank` (cam_helper_vc_cam.cpp:157-160):
`(hmaxOverwrite > hmaxBase) ? (hmaxOverwrite - hmaxBase) * numLanes : 0`,
with the `uint32_t` product reduced mod `2^32`. -/
def hblank (mode : CameraMode) (minFrameDuration : ℚ) : ℕ :=
  if hmaxBaseOf mode < hmaxOverwrite mode minFrameDuration then
    (hmaxOverwrite mode minFrameDuration - hmaxBaseOf mode) * numLanes % U32
  else 0

/-- `const uint32_t vblank` (cam_helper_vc_cam.cpp:162-165):
`(frameLengthLines > height) ? frameLengthLines - height : 0`. -/
def vblank (mode : CameraMode) (minFrameDuration : ℚ) : ℕ :=
  if mode.height < finalFrameLengthLines mode minFrameDuration then
    finalFrameLengthLines mode minFrameDuration - mode.height
  else 0

/-- The first argument of the `std::min` on cam_helper_vc_cam.cpp:168:
`frameLengthLines - frameIntegrationDiff` evaluated in `uint32_t` arithmetic,
so it wraps mod `2^32` when `frameLengthLines < 4`. (The model writes the
C++ wrap `(a - 4) mod 2^32` as `(a + 2^32 - 4) % 2^32`, the two agree for
every representable `uint32_t` value `a`.) -/
def exposureCap (mode : CameraMode) (minFrameDuration : ℚ) : ℕ :=
  (finalFrameLengthLines mode minFrameDuration + U32 - frameIntegrationDiff) % U32

/-- `const uint32_t exposureLines = std::min(frameLengthLines -
frameIntegrationDiff, CamHelper::exposureLines(exposure, lineLength))`
(cam_helper_vc_cam.cpp:167-169). -/
def finalExposureLines (mode : CameraMode) (exposure minFrameDuration : ℚ) : ℕ :=
  min (exposureCap mode minFrameDuration)
    (exposureLinesOf exposure (finalLineLength mode minFrameDuration))

/-- `CamHelperImxVCCamera::getBlanking` (cam_helper_vc_cam.cpp:115-173).
Returns `((vblank, hblank), exposureOut)` where `exposureOut` is the value the
C++ code writes back into its in/out `exposure` argument on line 170.
`maxFrameDuration` is accepted and discarded (line 121). -/
def getBlanking (mode : CameraMode)
    (exposure minFrameDuration maxFrameDuration : ℚ) : (ℕ × ℕ) × ℚ :=
  -- mirrors the discarding `static_cast<void>(maxFrameDuration)` on line 121
  let _ := maxFrameDuration
  ((vblank mode minFrameDuration, hblank mode minFrameDuration),
    exposureOf (finalExposureLines mode exposure minFrameDuration)
      (finalLineLength mode minFrameDuration))

/-- `CamHelperImxVCCamera::gainCode` rounds half away from zero via
`std::lround`; over `ℝ`, half away from zero agrees with `round` (half up)
on nonnegative arguments and mirrors it on negative ones. -/
noncomputable def lround (x : ℝ) : ℤ :=
  if 0 ≤ x then round x else -round (-x)

/-- `CamHelperImxVCCamera::gainCode` (cam_helper_vc_cam.cpp:77-91):
`g = max(gain, 1e-9)`, `mdb = lround(20000 * log10(g))`, negative `mdb`
clamped to 0, then returned as `uint32_t`. -/
noncomputable def gainCode (gain : ℝ) : ℕ :=
  (max (lround (20000 * Real.logb 10 (max gain 1e-9))) 0).toNat

/-- `CamHelperImxVCCamera::gain` (cam_helper_vc_cam.cpp:93-97):
`pow(10.0, gainCode / 20000.0)`. -/
noncomputable def gain (code : ℕ) : ℝ :=
  (10 : ℝ) ^ ((code : ℝ) / 20000)

/-- Concrete sensor mode used to instantiate theorems with hypotheses:
a 10-bit mode whose requested frame duration forces the rescale branch. -/
def mode1 : CameraMode :=
  { width := 100, height := 40, bitdepth := 10, pixelRate := 800000000,
    minLineLength := 1000, maxLineLength := 10000, maxFrameLength := 50 }

/-- Evaluation on `mode1`: the initial frame length for a requested
100000 ns frame duration is 100 lines. -/
theorem mode1_frameLengthLines0 : frameLengthLines0 mode1 100000 = 100 := by
  norm_num [frameLengthLines0, mode1]
  decide

/-- Evaluation on `mode1`: the rescaled line length for 100000 ns is
2000 ns. -/
theorem mode1_finalLineLength : finalLineLength mode1 100000 = 2000 := by
  rw [finalLineLength, mode1_frameLengthLines0]
  norm_num [mode1, min_def]

/-- Evaluation on `mode1`: the truncated nanosecond line length for
100000 ns is 2000. -/
theorem mode1_lineNs : lineNs mode1 100000 = 2000 := by
  rw [lineNs, mode1_finalLineLength]
  norm_num
  decide

/-- Evaluation on `mode1`: the effective per-lane pixel rate is 10^8. -/
theorem mode1_sensorPixelRate : sensorPixelRate mode1 = 100000000 := by
  norm_num [sensorPixelRate, mode1, numLanes]
  decide

/-- Evaluation on `mode1`: the register-domain line timing for 100000 ns
is 200. -/
theorem mode1_hmaxOverwrite : hmaxOverwrite mode1 100000 = 200 := by
  rw [hmaxOverwrite, mode1_lineNs, mode1_sensorPixelRate]
  decide

/-- C2: in `getBlanking`, starting from `lineLength = minLineLength` and
`frameLengthLines = floor(minFrameDuration / minLineLength)`, whenever
`frameLengthLines` exceeds `maxFrameLength` the line length is rescaled to
`min(maxLineLength, lineLength * frameLengthLines / maxFrameLength)` and the
final frame length is exactly `maxFrameLength`; otherwise both are
unchanged. -/
theorem getBlanking_rescale (mode : CameraMode) (minFD : ℚ) :
    frameLengthLines0 mode minFD = (⌊minFD / mode.minLineLength⌋).toNat
    ∧ (mode.maxFrameLength < frameLengthLines0 mode minFD →
        finalLineLength mode minFD
          = min mode.maxLineLength
              (mode.minLineLength * (frameLengthLines0 mode minFD : ℚ) /
                (mode.maxFrameLength : ℚ))
        ∧ finalFrameLengthLines mode minFD = mode.maxFrameLength)
    ∧ (¬ mode.maxFrameLength < frameLengthLines0 mode minFD →
        finalLineLength mode minFD = mode.minLineLength
        ∧ finalFrameLengthLines mode minFD = frameLengthLines0 mode minFD) := by
  refine ⟨rfl, fun h => ?_, fun h => ?_⟩ <;>
    simp [finalLineLength, finalFrameLengthLines, h]

/-- C2 witness: on `mode1` with `minFrameDuration = 100000` ns the initial
frame length is 100 lines, above `maxFrameLength = 50`, so the rescale branch
fires. -/
theorem getBlanking_rescale_witness :
    finalLineLength mode1 100000
      = min mode1.maxLineLength
          (mode1.minLineLength * (frameLengthLines0 mode1 100000 : ℚ) /
            (mode1.maxFrameLength : ℚ))
    ∧ finalFrameLengthLines mode1 100000 = mode1.maxFrameLength :=
  (getBlanking_rescale mode1 100000).2.1 (by norm_num [frameLengthLines0, mode1])

/-- C6: `hmaxBase` comes from the per-bit-depth table {8 → 338, 10 → 364,
12 → 610}; any other bit depth falls back to the active width of the mode. -/
theorem getBlanking_hmaxBase (mode : CameraMode) :
    (mode.bitdepth = 8 → hmaxBaseOf mode = 338)
    ∧ (mode.bitdepth = 10 → hmaxBaseOf mode = 364)
    ∧ (mode.bitdepth = 12 → hmaxBaseOf mode = 610)
    ∧ (mode.bitdepth ≠ 8 → mode.bitdepth ≠ 10 → mode.bitdepth ≠ 12 →
        hmaxBaseOf mode = mode.width) := by
  refine ⟨fun h => ?_, fun h => ?_, fun h => ?_, fun h8 h10 h12 => ?_⟩ <;>
    simp [hmaxBaseOf, *]

/-- C6 witness: `mode1` has bit depth 10, so its `hmaxBase` is 364. -/
theorem getBlanking_hmaxBase_witness : hmaxBaseOf mode1 = 364 :=
  (getBlanking_hmaxBase mode1).2.1 rfl

/-- Helper: converting a whole number of line lengths back to lines recovers
the line count (for a nonzero line length). -/
theorem exposureLinesOf_exposureOf (n : ℕ) (q : ℚ) (h0 : q ≠ 0) :
    exposureLinesOf (exposureOf n q) q = n := by
  unfold exposureLinesOf exposureOf
  rw [mul_div_cancel_right₀ _ h0]
  simp

/-- Helper: the exposure-lines clamp is a fixed point once an exposure has
been written back as a whole number of line lengths. -/
theorem finalExposureLines_exposureOf (mode : CameraMode) (e minFD : ℚ) :
    finalExposureLines mode
        (exposureOf (finalExposureLines mode e minFD) (finalLineLength mode minFD))
        minFD
      = finalExposureLines mode e minFD := by
  rcases eq_or_ne (finalLineLength mode minFD) 0 with h0 | h0
  · simp [finalExposureLines, exposureLinesOf, h0]
  · rw [finalExposureLines, exposureLinesOf_exposureOf _ _ h0, finalExposureLines,
      min_eq_right (min_le_left _ _)]

/-- C7: `getBlanking` is idempotent in the exposure argument: feeding the
written-back exposure into a second call with the same duration window
returns the same blanking pair and leaves the exposure unchanged. -/
theorem getBlanking_idempotent (mode : CameraMode) (e minFD maxFD : ℚ) :
    getBlanking mode (getBlanking mode e minFD maxFD).2 minFD maxFD
      = getBlanking mode e minFD maxFD := by
  simp only [getBlanking]
  rw [finalExposureLines_exposureOf]

/-- Helper: a line count bounded by the floor conversion of an exposure
yields, after conversion back to a duration, at most that exposure. -/
theorem exposureOf_le_of_le_lines (n : ℕ) (e q : ℚ) (he : 0 ≤ e) (hq : 0 < q)
    (hn : n ≤ exposureLinesOf e q) : exposureOf n q ≤ e := by
  unfold exposureOf
  unfold exposureLinesOf at hn
  have hfl : (0 : ℤ) ≤ ⌊e / q⌋ := Int.floor_nonneg.mpr (div_nonneg he hq.le)
  have hZ : ((n : ℕ) : ℤ) ≤ ⌊e / q⌋ := by omega
  have hQ : ((n : ℕ) : ℚ) ≤ e / q :=
    le_trans (by exact_mod_cast hZ) (Int.floor_le _)
  calc (n : ℚ) * q ≤ (e / q) * q := mul_le_mul_of_nonneg_right hQ hq.le
    _ = e := div_mul_cancel₀ e hq.ne'

/-- Helper: `exposureOf` is monotone in the line count for a nonnegative
line length. -/
theorem exposureOf_mono (m n : ℕ) (q : ℚ) (hq : 0 ≤ q) (h : m ≤ n) :
    exposureOf m q ≤ exposureOf n q :=
  mul_le_mul_of_nonneg_right (by exact_mod_cast Nat.cast_le.mpr h) hq

/-- Helper: when the final frame length is at least `frameIntegrationDiff`,
the `uint32_t` exposure cap is at most `frameLengthLines - 4`. -/
theorem exposureCap_le (mode : CameraMode) (minFD : ℚ)
    (h : frameIntegrationDiff ≤ finalFrameLengthLines mode minFD) :
    exposureCap mode minFD
      ≤ finalFrameLengthLines mode minFD - frameIntegrationDiff := by
  unfold exposureCap
  have hsplit : finalFrameLengthLines mode minFD + U32 - frameIntegrationDiff
      = (finalFrameLengthLines mode minFD - frameIntegrationDiff) + U32 := by
    have : frameIntegrationDiff ≤ U32 := by norm_num [frameIntegrationDiff, U32]
    omega
  rw [hsplit, Nat.add_mod_right]
  exact Nat.mod_le _ _

/-- C3 (amended): the written-back exposure equals
`exposureLines * lineLength` with `exposureLines = min((frameLengthLines -
frameIntegrationDiff) mod 2^32, floor(exposure / lineLength))`; it is at most
the requested exposure and an integer multiple of the line length, and, when
the final frame length is at least `frameIntegrationDiff = 4`, at most
`(frameLengthLines - 4)` line lengths. -/
theorem getBlanking_exposure_writeback (mode : CameraMode) (e minFD maxFD : ℚ)
    (he : 0 ≤ e) (hll : 0 < finalLineLength mode minFD) :
    (getBlanking mode e minFD maxFD).2
      = exposureOf (finalExposureLines mode e minFD) (finalLineLength mode minFD)
    ∧ finalExposureLines mode e minFD
      = min (exposureCap mode minFD)
          (exposureLinesOf e (finalLineLength mode minFD))
    ∧ (getBlanking mode e minFD maxFD).2 ≤ e
    ∧ (frameIntegrationDiff ≤ finalFrameLengthLines mode minFD →
        (getBlanking mode e minFD maxFD).2
          ≤ ((finalFrameLengthLines mode minFD - frameIntegrationDiff : ℕ) : ℚ) *
              finalLineLength mode minFD)
    ∧ ∃ lines : ℕ, (getBlanking mode e minFD maxFD).2
        = (lines : ℚ) * finalLineLength mode minFD := by
  refine ⟨rfl, rfl, ?_, fun hmargin => ?_, ⟨finalExposureLines mode e minFD, rfl⟩⟩
  · exact exposureOf_le_of_le_lines _ _ _ he hll (min_le_right _ _)
  · show exposureOf (finalExposureLines mode e minFD) (finalLineLength mode minFD) ≤ _
    have hcap : finalExposureLines mode e minFD
        ≤ finalFrameLengthLines mode minFD - frameIntegrationDiff :=
      le_trans (min_le_left _ _) (exposureCap_le mode minFD hmargin)
    exact exposureOf_mono _ _ _ hll.le hcap

/-- C3 counterexample: on `mode1` with `minFrameDuration = 0` the final frame
length is 0 lines, the `uint32_t` subtraction `frameLengthLines - 4` wraps,
and a requested exposure of 5000 ns is written back as 5000 ns, far above
`(frameLengthLines - 4)` line lengths (which is 0). -/
theorem getBlanking_exposure_margin_counterexample :
    ¬ (getBlanking mode1 5000 0 0).2
        ≤ ((finalFrameLengthLines mode1 0 - frameIntegrationDiff : ℕ) : ℚ) *
            finalLineLength mode1 0 := by
  norm_num [getBlanking, exposureOf, finalExposureLines, exposureCap,
    exposureLinesOf, finalFrameLengthLines, finalLineLength, frameLengthLines0,
    frameIntegrationDiff, U32, mode1, min_def]

/-- C3 witness: on `mode1` with `minFrameDuration = 100000` ns (final frame
length 50 lines) a requested exposure of 5000 ns is written back as at most
5000 ns. -/
theorem getBlanking_exposure_writeback_witness :
    (getBlanking mode1 5000 100000 100000).2 ≤ 5000 :=
  (getBlanking_exposure_writeback mode1 5000 100000 100000 (by norm_num)
      (by rw [mode1_finalLineLength]; norm_num)).2.2.1

/-- C5: the effective sensor pixel rate is `pixelRate / (2 * numLanes)` (cast
to `uint64_t`), `hmaxOverwrite` is the line length in nanoseconds times that
rate divided by `10^9` (within `uint64_t` / `uint32_t` range), and the
horizontal blanking is `(hmaxOverwrite - hmaxBase) * numLanes` when
`hmaxOverwrite > hmaxBase` and 0 otherwise. -/
theorem getBlanking_horizontalBlank (mode : CameraMode) (e minFD maxFD : ℚ) :
    sensorPixelRate mode = (⌊mode.pixelRate / ((2 * numLanes : ℕ) : ℚ)⌋).toNat
    ∧ (lineNs mode minFD * sensorPixelRate mode < U64 →
        lineNs mode minFD * sensorPixelRate mode / 1000000000 < U32 →
        hmaxOverwrite mode minFD
          = lineNs mode minFD * sensorPixelRate mode / 1000000000)
    ∧ (hmaxBaseOf mode < hmaxOverwrite mode minFD →
        (hmaxOverwrite mode minFD - hmaxBaseOf mode) * numLanes < U32 →
        hblank mode minFD
          = (hmaxOverwrite mode minFD - hmaxBaseOf mode) * numLanes)
    ∧ (hmaxOverwrite mode minFD ≤ hmaxBaseOf mode → hblank mode minFD = 0)
    ∧ (getBlanking mode e minFD maxFD).1.2 = hblank mode minFD := by
  refine ⟨rfl, fun h1 h2 => ?_, fun h3 h4 => ?_, fun h5 => ?_, rfl⟩
  · unfold hmaxOverwrite
    rw [Nat.mod_eq_of_lt h1, Nat.mod_eq_of_lt h2]
  · unfold hblank
    rw [if_pos h3, Nat.mod_eq_of_lt h4]
  · unfold hblank
    rw [if_neg (not_lt.mpr h5)]

/-- C5 witness: on `mode1` with `minFrameDuration = 100000` ns the rescaled
line length is 2000 ns, the effective pixel rate is `10^8`, `hmaxOverwrite`
is 200, below the 10-bit base 364, so the horizontal blanking is 0. -/
theorem getBlanking_horizontalBlank_witness : hblank mode1 100000 = 0 :=
  (getBlanking_horizontalBlank mode1 0 100000 0).2.2.2.1
    (by rw [mode1_hmaxOverwrite]; decide)

/-- C10: when the final frame length is below `frameIntegrationDiff = 4`, the
`uint32_t` subtraction `frameLengthLines - frameIntegrationDiff` wraps mod
`2^32` to a value of at least `2^32 - 4`, so (for any in-range conversion of
the requested exposure) the exposure-lines clamp has no effect and
`exposureLines = floor(exposure / lineLength)` exactly, which may exceed the
frame length itself. -/
theorem getBlanking_exposureCap_wraps (mode : CameraMode) (e minFD : ℚ)
    (hfl : finalFrameLengthLines mode minFD < frameIntegrationDiff)
    (hexp : exposureLinesOf e (finalLineLength mode minFD)
      ≤ U32 - frameIntegrationDiff) :
    exposureCap mode minFD
      = U32 - (frameIntegrationDiff - finalFrameLengthLines mode minFD)
    ∧ U32 - frameIntegrationDiff ≤ exposureCap mode minFD
    ∧ finalExposureLines mode e minFD
      = exposureLinesOf e (finalLineLength mode minFD) := by
  have hcap : exposureCap mode minFD
      = U32 - (frameIntegrationDiff - finalFrameLengthLines mode minFD) := by
    unfold exposureCap
    norm_num only [U32, frameIntegrationDiff] at hfl ⊢
    omega
  refine ⟨hcap, ?_, ?_⟩
  · rw [hcap]
    norm_num only [U32, frameIntegrationDiff] at hfl ⊢
    omega
  · unfold finalExposureLines
    rw [hcap]
    refine min_eq_right ?_
    norm_num only [U32, frameIntegrationDiff] at hexp hfl ⊢
    omega

/-- C10 witness: on `mode1` with `minFrameDuration = 0` the final frame
length is 0 lines; a requested exposure of 5000 ns converts to 5 lines,
which survives the wrapped clamp and exceeds the frame length. -/
theorem getBlanking_exposureCap_wraps_witness :
    finalExposureLines mode1 5000 0
      = exposureLinesOf 5000 (finalLineLength mode1 0)
    ∧ finalFrameLengthLines mode1 0
      < exposureLinesOf 5000 (finalLineLength mode1 0) :=
  ⟨(getBlanking_exposureCap_wraps mode1 5000 0
      (by norm_num [finalFrameLengthLines, frameLengthLines0, mode1,
        frameIntegrationDiff])
      (by norm_num [exposureLinesOf, finalLineLength, frameLengthLines0, mode1,
        U32, frameIntegrationDiff])).2.2,
    by norm_num [exposureLinesOf, finalLineLength, finalFrameLengthLines,
      frameLengthLines0, mode1]⟩

/-- C8: `getBlanking` ignores its `maxFrameDuration` argument entirely: two
calls differing only in `maxFrameDuration` return the same blanking pair and
write back the same exposure. -/
theorem getBlanking_ignores_maxFrameDuration (mode : CameraMode)
    (e minFD maxFD maxFD' : ℚ) :
    getBlanking mode e minFD maxFD = getBlanking mode e minFD maxFD' := rfl

/-- Helper: `round` is monotone. -/
theorem round_mono_of_le {x y : ℝ} (h : x ≤ y) : round x ≤ round y := by
  rw [round_eq, round_eq]
  exact Int.floor_mono (by linarith)

/-- Helper: `round` of a nonnegative real is nonnegative. -/
theorem round_nonneg_of_nonneg {x : ℝ} (hx : 0 ≤ x) : 0 ≤ round x := by
  have h := round_mono_of_le hx
  simpa using h

/-- Helper: `lround` agrees with `round` on nonnegative arguments. -/
theorem lround_of_nonneg {x : ℝ} (hx : 0 ≤ x) : lround x = round x := if_pos hx

/-- Helper: `lround` of a nonpositive real is nonpositive. -/
theorem lround_nonpos {x : ℝ} (hx : x ≤ 0) : lround x ≤ 0 := by
  unfold lround
  split
  · have hx0 : x = 0 := le_antisymm hx (by assumption)
    simp [hx0]
  · have h : (0 : ℤ) ≤ round (-x) :=
      round_nonneg_of_nonneg (neg_nonneg.mpr hx)
    omega

/-- Helper: `lround` is monotone. -/
theorem lround_mono {x y : ℝ} (h : x ≤ y) : lround x ≤ lround y := by
  unfold lround
  split <;> split
  case isTrue.isTrue => exact round_mono_of_le h
  case isTrue.isFalse hx hy => exact absurd (le_trans hx h) hy
  case isFalse.isTrue hx hy =>
    have h1 : (0 : ℤ) ≤ round (-x) :=
      round_nonneg_of_nonneg (neg_nonneg.mpr (le_of_not_le hx))
    have h2 : (0 : ℤ) ≤ round y := round_nonneg_of_nonneg hy
    omega
  case isFalse.isFalse =>
    have h1 : round (-y) ≤ round (-x) := round_mono_of_le (by linarith)
    omega

/-- C1: `gainCode` computes `round(20000 * log10(max(gain, 1e-9)))` with any
negative result clamped to 0 before the cast to `uint32_t`; in particular
`gainCode g = 0` for every `g ≤ 1`. -/
theorem gainCode_formula :
    (∀ g : ℝ, gainCode g
        = (max (lround (20000 * Real.logb 10 (max g 1e-9))) 0).toNat)
    ∧ ∀ g : ℝ, g ≤ 1 → gainCode g = 0 := by
  refine ⟨fun g => rfl, fun g hg => ?_⟩
  unfold gainCode
  have hmax : max g 1e-9 ≤ 1 := max_le hg (by norm_num)
  have hpos : (0 : ℝ) < max g 1e-9 := lt_max_of_lt_right (by norm_num)
  have hlog : Real.logb 10 (max g 1e-9) ≤ 0 :=
    Real.logb_nonpos (by norm_num) hpos.le hmax
  have h20 : 20000 * Real.logb 10 (max g 1e-9) ≤ 0 := by linarith
  have hlr : lround (20000 * Real.logb 10 (max g 1e-9)) ≤ 0 := lround_nonpos h20
  rw [max_eq_right hlr]
  rfl

/-- C1 witness: a linear gain of exactly 1 encodes to code 0. -/
theorem gainCode_formula_witness : gainCode 1 = 0 :=
  gainCode_formula.2 1 le_rfl

/-- C9: `gainCode` is monotonically non-decreasing in the linear gain. -/
theorem gainCode_monotone (g1 g2 : ℝ) (h : g1 ≤ g2) :
    gainCode g1 ≤ gainCode g2 := by
  unfold gainCode
  have hpos : (0 : ℝ) < max g1 1e-9 := lt_max_of_lt_right (by norm_num)
  have hlog : Real.logb 10 (max g1 1e-9) ≤ Real.logb 10 (max g2 1e-9) :=
    Real.logb_le_logb_of_le (by norm_num) hpos (max_le_max h le_rfl)
  have h20 : 20000 * Real.logb 10 (max g1 1e-9)
      ≤ 20000 * Real.logb 10 (max g2 1e-9) := by linarith
  exact Int.toNat_le_toNat (max_le_max (lround_mono h20) le_rfl)

/-- C9 witness: a gain of 1 encodes to a code at most that of a gain of 2. -/
theorem gainCode_monotone_witness : gainCode 1 ≤ gainCode 2 :=
  gainCode_monotone 1 2 (by norm_num)

/-- C4: `gain` (decode) returns `10^(code / 20000)`, and for every linear
gain `g ≥ 1` the round trip `gain (gainCode g)` lies within one code step
(a multiplicative factor of `10^(1/20000)`) of `g`. -/
theorem gain_gainCode_roundtrip :
    (∀ code : ℕ, gain code = (10 : ℝ) ^ ((code : ℝ) / 20000))
    ∧ ∀ g : ℝ, 1 ≤ g →
        g / (10 : ℝ) ^ ((1 : ℝ) / 20000) ≤ gain (gainCode g)
        ∧ gain (gainCode g) ≤ g * (10 : ℝ) ^ ((1 : ℝ) / 20000) := by
  refine ⟨fun code => rfl, fun g hg => ?_⟩
  set L := Real.logb 10 g with hL
  have h10 : (0 : ℝ) < 10 := by norm_num
  have hgpos : (0 : ℝ) < g := lt_of_lt_of_le one_pos hg
  have hmax : max g 1e-9 = g := max_eq_left (le_trans (by norm_num) hg)
  have hLnn : 0 ≤ L := Real.logb_nonneg (by norm_num) hg
  have harg : 0 ≤ 20000 * L := by linarith
  have hrnn : 0 ≤ round (20000 * L) := round_nonneg_of_nonneg harg
  have hcode : gainCode g = (round (20000 * L)).toNat := by
    unfold gainCode
    rw [hmax, ← hL, lround_of_nonneg harg, max_eq_left hrnn]
  have hcast : ((gainCode g : ℕ) : ℝ) = ((round (20000 * L) : ℤ) : ℝ) := by
    rw [hcode]
    exact_mod_cast congrArg (Int.cast : ℤ → ℝ) (Int.toNat_of_nonneg hrnn)
  have hgain : gain (gainCode g)
      = (10 : ℝ) ^ (((round (20000 * L) : ℤ) : ℝ) / 20000) := by
    unfold gain
    rw [hcast]
  have hub : ((round (20000 * L) : ℤ) : ℝ) ≤ 20000 * L + 1 / 2 :=
    round_le_add_half _
  have hlb : 20000 * L - 1 / 2 ≤ ((round (20000 * L) : ℤ) : ℝ) :=
    (sub_half_lt_round _).le
  have hg10 : (10 : ℝ) ^ L = g := Real.rpow_logb h10 (by norm_num) hgpos
  constructor
  · calc g / (10 : ℝ) ^ ((1 : ℝ) / 20000)
        = (10 : ℝ) ^ L / (10 : ℝ) ^ ((1 : ℝ) / 20000) := by rw [hg10]
      _ = (10 : ℝ) ^ (L - 1 / 20000) := (Real.rpow_sub h10 _ _).symm
      _ ≤ (10 : ℝ) ^ (((round (20000 * L) : ℤ) : ℝ) / 20000) := by
          refine Real.rpow_le_rpow_of_exponent_le (by norm_num) ?_
          linarith
      _ = gain (gainCode g) := hgain.symm
  · calc gain (gainCode g)
        = (10 : ℝ) ^ (((round (20000 * L) : ℤ) : ℝ) / 20000) := hgain
      _ ≤ (10 : ℝ) ^ (L + 1 / 20000) := by
          refine Real.rpow_le_rpow_of_exponent_le (by norm_num) ?_
          linarith
      _ = (10 : ℝ) ^ L * (10 : ℝ) ^ ((1 : ℝ) / 20000) := Real.rpow_add h10 _ _
      _ = g * (10 : ℝ) ^ ((1 : ℝ) / 20000) := by rw [hg10]

/-- C4 witness: the round trip at a gain of exactly 1 stays within one code
step above 1. -/
theorem gain_gainCode_roundtrip_witness :
    gain (gainCode 1) ≤ 1 * (10 : ℝ) ^ ((1 : ℝ) / 20000) :=
  (gain_gainCode_roundtrip.2 1 le_rfl).2

end VCCam
